import Mathlib

/-!
Shallow embedding of `ssnd_loader.py` (SSND instance / scenario loader).

Conventions of the embedding:
* Python strings are modelled as `List Char` (abbreviated `Str`); the
  outermost entry points convert from Lean `String` once.
* Python `dict` is modelled as an association list with insertion-order
  preserving insert-or-update (`pyInsert`), exactly the observable
  behaviour of CPython dicts for the operations the loader uses.
* Python `float` is modelled as `ℚ` with exact decimal semantics.  Every
  numeric comparison made by the claims involves dyadic decimals
  (`2.0`, `5.0`, `0.5`, `3.5`, integers), on which IEEE doubles are exact,
  so the rational model is observationally faithful for these claims.
* Fallible Python code (exceptions) is modelled with `Except PyErr`.
-/

abbrev Str := List Char

/-- Characters treated as whitespace by Python `str.strip()` (ASCII part;
the loader's data is ASCII). -/
def isPySpace (c : Char) : Bool :=
  c = ' ' || c = '\t' || c = '\n' || c = '\r' || c = '\x0b' || c = '\x0c'

/-- Python `s.strip()`. -/
def pyStripL (s : Str) : Str :=
  ((s.dropWhile isPySpace).reverse.dropWhile isPySpace).reverse

/-- `_clean` from the source: `s.strip().replace("\r", "")`. -/
def pyCleanLine (s : Str) : Str :=
  (pyStripL s).filter (fun c => !(c = '\r'))

/-- Split a list at every occurrence of `c` (the separator is dropped);
models Python `str.split(sep)` for a one-character separator: the result
is always non-empty and empty fields are kept. -/
def splitOnChar (c : Char) : Str → List Str
  | [] => [[]]
  | x :: xs =>
    let r := splitOnChar c xs
    if x = c then [] :: r
    else
      match r with
      | h :: t => (x :: h) :: t
      | [] => [[x]]

/-- Python `text.splitlines()` restricted to `\n` line terminators (a
trailing `\r` of a `\r\n` pair survives here and is removed by
`pyCleanLine`, giving the same lines the source computes). -/
def pySplitlines (s : Str) : List Str :=
  let ps := splitOnChar '\n' s
  if ps.getLast? = some [] then ps.dropLast else ps

/-- Python dict write `d[k] = v`: update in place if the key is present
(keeping its position), else append. -/
def pyInsert [DecidableEq κ] (d : List (κ × ν)) (k : κ) (v : ν) : List (κ × ν) :=
  match d with
  | [] => [(k, v)]
  | (k', v') :: rest => if k' = k then (k, v) :: rest else (k', v') :: pyInsert rest k v

/-- Dict lookup (keys of a `pyInsert`-built dict are unique). -/
def alookup [DecidableEq κ] (d : List (κ × ν)) (k : κ) : Option ν :=
  match d with
  | [] => none
  | (k', v) :: rest => if k' = k then some v else alookup rest k

/-- The Python exceptions the loader can raise, plus the spec's
`MalformedRowError`.  The source never constructs `malformedRow`; the
constructor exists only so that claims speaking about the spec's error
taxonomy can be stated and refuted against the code. -/
inductive PyErr where
  | keyError (k : Str)
  | indexError
  | valueError (msg : Str)
  | typeError
  | malformedRow (sec : Str) (line : Str)
deriving DecidableEq

/-- `True` exactly for the spec's `MalformedRowError`. -/
def PyErr.isMalformedRow : PyErr → Bool
  | .malformedRow _ _ => true
  | _ => false

/-- `True` exactly for a missing-dict-key failure (Python `KeyError`,
the code's realisation of the spec's `MissingFieldError`). -/
def PyErr.isKeyErr : PyErr → Bool
  | .keyError _ => true
  | _ => false

def exIsOk : Except ε α → Bool
  | .ok _ => true
  | .error _ => false

def exErrIsMalformedRow : Except PyErr α → Bool
  | .error e => e.isMalformedRow
  | .ok _ => false

def exErrIsKeyErr : Except PyErr α → Bool
  | .error e => e.isKeyErr
  | .ok _ => false

/-- Python list index `xs[i]` (raises `IndexError` out of range). -/
def pyIndex (xs : List α) (i : Nat) : Except PyErr α :=
  match xs.get? i with
  | some a => .ok a
  | none => .error .indexError

/-- Values `ast.literal_eval` produces on this data format: ints, floats,
tuples and lists (string/bool/None literals never occur in the format and
are not modelled). -/
inductive Lit where
  | int (n : Int)
  | float (q : ℚ)
  | tup (xs : List Lit)
  | list (xs : List Lit)
deriving Inhabited

mutual

def Lit.decEq : (a b : Lit) → Decidable (a = b)
  | .int a, .int b =>
    if h : a = b then .isTrue (by rw [h]) else .isFalse (fun he => h (Lit.int.inj he))
  | .float a, .float b =>
    if h : a = b then .isTrue (by rw [h]) else .isFalse (fun he => h (Lit.float.inj he))
  | .tup xs, .tup ys =>
    match Lit.decEqList xs ys with
    | .isTrue h => .isTrue (by rw [h])
    | .isFalse h => .isFalse (fun he => h (Lit.tup.inj he))
  | .list xs, .list ys =>
    match Lit.decEqList xs ys with
    | .isTrue h => .isTrue (by rw [h])
    | .isFalse h => .isFalse (fun he => h (Lit.list.inj he))
  | .int _, .float _ => .isFalse (fun h => Lit.noConfusion h)
  | .int _, .tup _ => .isFalse (fun h => Lit.noConfusion h)
  | .int _, .list _ => .isFalse (fun h => Lit.noConfusion h)
  | .float _, .int _ => .isFalse (fun h => Lit.noConfusion h)
  | .float _, .tup _ => .isFalse (fun h => Lit.noConfusion h)
  | .float _, .list _ => .isFalse (fun h => Lit.noConfusion h)
  | .tup _, .int _ => .isFalse (fun h => Lit.noConfusion h)
  | .tup _, .float _ => .isFalse (fun h => Lit.noConfusion h)
  | .tup _, .list _ => .isFalse (fun h => Lit.noConfusion h)
  | .list _, .int _ => .isFalse (fun h => Lit.noConfusion h)
  | .list _, .float _ => .isFalse (fun h => Lit.noConfusion h)
  | .list _, .tup _ => .isFalse (fun h => Lit.noConfusion h)

def Lit.decEqList : (xs ys : List Lit) → Decidable (xs = ys)
  | [], [] => .isTrue rfl
  | [], _ :: _ => .isFalse (fun h => List.noConfusion h)
  | _ :: _, [] => .isFalse (fun h => List.noConfusion h)
  | x :: xs, y :: ys =>
    match Lit.decEq x y with
    | .isFalse h => .isFalse (fun he => h (List.cons.inj he).1)
    | .isTrue h1 =>
      match Lit.decEqList xs ys with
      | .isTrue h2 => .isTrue (by rw [h1, h2])
      | .isFalse h2 => .isFalse (fun he => h2 (List.cons.inj he).2)

end

instance : DecidableEq Lit := Lit.decEq

instance [DecidableEq ε] [DecidableEq α] : DecidableEq (Except ε α) := fun a b =>
  match a, b with
  | .ok x, .ok y =>
    if h : x = y then .isTrue (by rw [h]) else .isFalse (fun he => h (Except.ok.inj he))
  | .error x, .error y =>
    if h : x = y then .isTrue (by rw [h]) else .isFalse (fun he => h (Except.error.inj he))
  | .ok _, .error _ => .isFalse (fun h => Except.noConfusion h)
  | .error _, .ok _ => .isFalse (fun h => Except.noConfusion h)

/-- Digits to the number they denote in base 10. -/
def digitsVal (s : Str) : Nat :=
  s.foldl (fun a c => 10 * a + (c.toNat - 48)) 0

/-- Reads at most one leading sign; returns (isNegative, rest). -/
def readSign (s : Str) : Bool × Str :=
  match s with
  | '-' :: r => (true, r)
  | '+' :: r => (false, r)
  | _ => (false, s)

/-- Exponent part of a numeric token: `e`/`E` then signed digits.  The
value is carried as an exact numerator/denominator pair (kept in integer
arithmetic so that proofs can evaluate it).  Returns
(numerator, denominator, isFloat, rest). -/
def lexExp (num : ℤ) (den : ℕ) (isF : Bool) (s : Str) : Option (ℤ × ℕ × Bool × Str) :=
  match s with
  | 'e' :: r =>
    let p := readSign r
    let d := p.2.takeWhile Char.isDigit
    if d = [] then none
    else if p.1 then some (num, den * 10 ^ digitsVal d, true, p.2.dropWhile Char.isDigit)
    else some (num * (10 : ℤ) ^ digitsVal d, den, true, p.2.dropWhile Char.isDigit)
  | 'E' :: r =>
    let p := readSign r
    let d := p.2.takeWhile Char.isDigit
    if d = [] then none
    else if p.1 then some (num, den * 10 ^ digitsVal d, true, p.2.dropWhile Char.isDigit)
    else some (num * (10 : ℤ) ^ digitsVal d, den, true, p.2.dropWhile Char.isDigit)
  | _ => some (num, den, isF, s)

/-- Unsigned numeric token: `digits`, `digits.digits`, `digits.`, `.digits`,
with optional exponent.  Returns (numerator, denominator, isFloat, rest). -/
def lexUNum (s : Str) : Option (ℤ × ℕ × Bool × Str) :=
  let d1 := s.takeWhile Char.isDigit
  let r1 := s.dropWhile Char.isDigit
  match r1 with
  | '.' :: r2 =>
    let d2 := r2.takeWhile Char.isDigit
    let r3 := r2.dropWhile Char.isDigit
    if d1 = [] && d2 = [] then none
    else lexExp ((digitsVal d1 * 10 ^ d2.length + digitsVal d2 : ℕ) : ℤ) (10 ^ d2.length) true r3
  | _ => if d1 = [] then none else lexExp ((digitsVal d1 : ℕ) : ℤ) 1 false r1

/-- Python `int(str)`: optional surrounding whitespace, optional sign,
non-empty digits (digit-group underscores are not modelled; the data
never contains them). -/
def pyParseInt (s : Str) : Except PyErr Int :=
  let t := pyStripL s
  let p := readSign t
  if p.2 ≠ [] && p.2.all Char.isDigit then
    .ok (if p.1 then -(digitsVal p.2 : ℤ) else (digitsVal p.2 : ℤ))
  else .error (.valueError ("invalid literal for int: ".toList ++ s))

/-- Python `float(str)`: optional surrounding whitespace, optional sign,
then a numeric token consuming the whole rest (`inf`/`nan` are not
modelled; the data never contains them). -/
def parseFloat (s : Str) : Except PyErr ℚ :=
  let t := pyStripL s
  let p := readSign t
  match lexUNum p.2 with
  | some (num, den, _, rest) =>
    if rest = [] then .ok (if p.1 then mkRat (-num) den else mkRat num den)
    else .error (.valueError ("could not convert string to float: ".toList ++ s))
  | none => .error (.valueError ("could not convert string to float: ".toList ++ s))

def skipWs (s : Str) : Str := s.dropWhile isPySpace

mutual

/-- One atom of a Python literal: a (possibly signed) number, a
parenthesised tuple, or a bracketed list.  Returns the value and the
unconsumed rest.  `fuel` only bounds recursion depth; it is always ample
for the inputs the loader sees. -/
def parseAtom : Nat → Str → Option (Lit × Str)
  | 0, _ => none
  | fuel + 1, s =>
    match s with
    | '(' :: r =>
      match parseItems fuel r with
      | some (xs, tr, r2) =>
        match skipWs r2 with
        | ')' :: r3 =>
          match xs with
          | [x] => some (if tr then .tup [x] else x, r3)
          | _ => some (.tup xs, r3)
        | _ => none
      | none => none
    | '[' :: r =>
      match parseItems fuel r with
      | some (xs, _, r2) =>
        match skipWs r2 with
        | ']' :: r3 => some (.list xs, r3)
        | _ => none
      | none => none
    | _ =>
      let p := readSign s
      match lexUNum (skipWs p.2) with
      | some (num, den, isF, rest) =>
        some (if isF then .float (if p.1 then mkRat (-num) den else mkRat num den)
              else .int (if p.1 then -num else num), rest)
      | none => none

/-- Comma-separated items (possibly none); reports whether a trailing
comma was present, and the unconsumed rest. -/
def parseItems : Nat → Str → Option (List Lit × Bool × Str)
  | 0, _ => none
  | fuel + 1, s =>
    match parseAtom fuel (skipWs s) with
    | none => some ([], false, s)
    | some (x, r) =>
      match skipWs r with
      | ',' :: r2 =>
        match parseItems fuel r2 with
        | some (xs, tr, r3) => some (x :: xs, if xs.isEmpty then true else tr, r3)
        | none => none
      | r' => some ([x], false, r')

end

/-- `_lit` from the source: `ast.literal_eval` (restricted to the literal
shapes of the data format, including top-level unparenthesised tuples),
wrapped with the source's nicer `ValueError`. -/
def pyLit (x : Str) : Except PyErr Lit :=
  let fuel := 2 * x.length + 4
  match parseItems fuel x with
  | some (xs, tr, rest) =>
    if skipWs rest = [] then
      match xs with
      | [] => .error (.valueError ("literal_eval failed on: ".toList ++ x.take 200 ++ "...".toList))
      | [l] => .ok (if tr then .tup [l] else l)
      | _ => .ok (.tup xs)
    else .error (.valueError ("literal_eval failed on: ".toList ++ x.take 200 ++ "...".toList))
  | none => .error (.valueError ("literal_eval failed on: ".toList ++ x.take 200 ++ "...".toList))


/-! ## Section splitter (`_section_blocks`) -/

/-- The section names used as keys of the blocks dict (fixed strings in
the source). -/
inductive Sec where
  | HEADER | ARCS | SERVICES | REQS | HOLDING | PSI | EIN | EOUT
deriving DecidableEq

/-- `line.startswith("Arcs ")`. -/
def isArcsLine (l : Str) : Bool := l.take 5 = "Arcs ".toList

/-- First component of `ln.split(" ", 1)`. -/
def headKey (l : Str) : Str := l.takeWhile (fun c => !(c = ' '))

/-- Second component of `ln.split(" ", 1)` (everything after the first
space). -/
def headVal (l : Str) : Str := (l.dropWhile (fun c => !(c = ' '))).drop 1

/-- The header scan of `_section_blocks`: walk the lines accumulating
`key value` pairs into a dict until the first line starting with
`"Arcs "`; blank lines and lines without a space are skipped.  Returns
the dict and the unconsumed lines. -/
def headerScan : List Str → List (Str × Str) → List (Str × Str) × List Str
  | [], h => (h, [])
  | ln :: rest, h =>
    if isArcsLine ln then (h, ln :: rest)
    else if ln = [] then headerScan rest h
    else if ln.elem ' ' then headerScan rest (pyInsert h (headKey ln) (headVal ln))
    else headerScan rest h

/-- `take_table` from the source: collect lines until a blank line or
end of input. -/
def takeTable : List Str → List Str × List Str
  | [] => ([], [])
  | l :: rest =>
    if l = [] then ([], l :: rest)
    else
      let p := takeTable rest
      (l :: p.1, p.2)

def servicesHdrRow : Str :=
  "serviceID\tServices\torigin\talpha\tdestination\tbeta\tTranCost\tfs".toList

def reqsHdrRow : Str :=
  "reqs\torigins\tdestinations\talphas\tbetas\tcontract_based\trhos\tws".toList

def holdingHdrRow : Str := "HoldingArcs\tHoldingCost".toList

def psiHdrRow : Str := "reqs\ttimes\talphaPsi\tbetaPsi".toList

def einHdrRow : Str := "TimeNodes\tExecArcsIn".toList

def eoutHdrRow : Str := "TimeNodes\tExecArcsOut".toList

/-- The fixed, ordered table list of `_section_blocks`. -/
def tableSpecs : List (Sec × Str) :=
  [(Sec.SERVICES, servicesHdrRow), (Sec.REQS, reqsHdrRow), (Sec.HOLDING, holdingHdrRow),
   (Sec.PSI, psiHdrRow), (Sec.EIN, einHdrRow), (Sec.EOUT, eoutHdrRow)]

/-- The table scan: for each expected table in order, skip blank lines;
if the next line is exactly the expected header row, consume it and the
following non-blank lines as the table; otherwise the section is absent
and no input is consumed. -/
def scanTables : List (Sec × Str) → List Str → List (Sec × List Str)
  | [], _ => []
  | (sec, hdr) :: more, ls =>
    let ls2 := ls.dropWhile (fun l => l = [])
    match ls2 with
    | [] => scanTables more []
    | l :: rest =>
      if l = hdr then
        let p := takeTable rest
        (sec, p.1) :: scanTables more p.2
      else scanTables more (l :: rest)

/-- `_section_blocks` on already-cleaned lines. -/
def sectionBlocksLines (lines : List Str) : List (Sec × List Str) :=
  let p := headerScan lines []
  let hb : List (Sec × List Str) :=
    [(Sec.HEADER, p.1.map (fun kv => kv.1 ++ ' ' :: kv.2))]
  match p.2 with
  | l :: rest2 =>
    if isArcsLine l then hb ++ (Sec.ARCS, [l.drop 5]) :: scanTables tableSpecs rest2
    else hb ++ scanTables tableSpecs (l :: rest2)
  | [] => hb ++ scanTables tableSpecs []

/-- `_section_blocks` from the source: clean each line of the text, then
split into blocks. -/
def pySectionBlocks (text : String) : List (Sec × List Str) :=
  sectionBlocksLines ((pySplitlines text.toList).map pyCleanLine)

/-- `blocks.get(sec, [])`. -/
def blocksGetD (b : List (Sec × List Str)) (s : Sec) : List Str :=
  (alookup b s).getD []

/-! ## Header row parser (`_parse_header`) -/

/-- A value stored in the parsed-header dict: a Python object produced by
`int`/`float`/`ast.literal_eval` (`obj`), or a raw string (`str`). -/
inductive HVal where
  | obj (l : Lit)
  | str (s : Str)
deriving DecidableEq

def kNodeSize : Str := "NodeSize".toList
def kTimePeriods : Str := "TimePeriods".toList
def kRequestSize : Str := "RequestSize".toList
def kServiceNoPerArc : Str := "ServiceNoPerArc".toList
def kServiceCapacity : Str := "ServiceCapacity".toList
def kServiceCost : Str := "ServiceCost".toList
def kFastFrac : Str := "FastServiceRatio".toList
def kRevenueRange : Str := "RevenueRange".toList
def kReqDemandRange : Str := "ReqDemandRange".toList
def kTransHolding : Str := "Trans/HoldingCost".toList
def kTransCost : Str := "TransCost".toList
def kHoldingCost : Str := "HoldingCost".toList
def kName : Str := "Name".toList

/-- The keys parsed as ints by `_parse_header`. -/
def intHdrKeys : List Str :=
  [kNodeSize, kRequestSize, kServiceNoPerArc, kServiceCapacity, kServiceCost]

/-- The keys parsed via the literal decoder by `_parse_header`. -/
def litHdrKeys : List Str := [kTimePeriods, kRevenueRange, kReqDemandRange]

/-- Python subscript `l[i]` on a literal value. -/
def litItem (l : Lit) (i : Nat) : Except PyErr Lit :=
  match l with
  | .tup xs => pyIndex xs i
  | .list xs => pyIndex xs i
  | _ => .error .typeError

/-- `_parse_header` loop over the reconstructed `key value` lines.  The
`Name` branch and the unknown-key fallback of the source both store the
raw string value, so they are merged here. -/
def headerLoop : List Str → List (Str × HVal) → Except PyErr (List (Str × HVal))
  | [], acc => .ok acc
  | ln :: rest, acc =>
    if ln.elem ' ' then
      let key := headKey ln
      let val := pyStripL (headVal ln)
      if key ∈ intHdrKeys then do
        let n ← pyParseInt val
        headerLoop rest (pyInsert acc key (.obj (.int n)))
      else if key = kFastFrac then do
        let q ← parseFloat val
        headerLoop rest (pyInsert acc key (.obj (.float q)))
      else if key ∈ litHdrKeys then do
        let l ← pyLit val
        headerLoop rest (pyInsert acc key (.obj l))
      else if key = kTransHolding then do
        let th ← pyLit val
        let a ← litItem th 0
        let b ← litItem th 1
        headerLoop rest (pyInsert (pyInsert acc kTransCost (.obj a)) kHoldingCost (.obj b))
      else headerLoop rest (pyInsert acc key (.str val))
    else .error (.valueError "header line has no space".toList)

def pyParseHeader (lines : List Str) : Except PyErr (List (Str × HVal)) :=
  headerLoop lines []

/-! ## Conversions applied by the assembler -/

/-- Python `int(float)` truncates toward zero. -/
def ratTrunc (q : ℚ) : ℤ :=
  if q.num < 0 then -(Int.ofNat (q.num.natAbs / q.den)) else Int.ofNat (q.num.natAbs / q.den)

/-- Python `int(x)` on a header value. -/
def toInt : HVal → Except PyErr ℤ
  | .obj (.int n) => .ok n
  | .obj (.float q) => .ok (ratTrunc q)
  | .str s => pyParseInt s
  | .obj _ => .error .typeError

/-- Python `float(x)` on a header value. -/
def toFloat : HVal → Except PyErr ℚ
  | .obj (.int n) => .ok ((n : ℚ))
  | .obj (.float q) => .ok q
  | .str s => parseFloat s
  | .obj _ => .error .typeError

/-- Python `list(x)` / `tuple(x)` on a header value (both succeed exactly
on tuple/list objects here; no string-valued literal reaches these
conversions in the loader). -/
def toSeq : HVal → Except PyErr (List Lit)
  | .obj (.tup xs) => .ok xs
  | .obj (.list xs) => .ok xs
  | _ => .error .typeError

/-! ## Row parsers -/

/-- Result of `_parse_services`: the services list and the `cs`/`fs`
dicts.  Arcs are whatever literal the row carried (the source never
validates their shape). -/
structure ServData where
  services : List Lit
  cs : List (Lit × ℚ)
  fs : List (Lit × ℚ)
deriving DecidableEq, Inhabited

/-- One SERVICES row: split on tabs, convert fields 0 (id), 1 (arc
literal), 6 (transshipment cost) and 7 (fixed cost) in source order. -/
def parseServiceRow (ln : Str) : Except PyErr (Lit × ℚ × ℚ) := do
  let parts := splitOnChar '\t' ln
  let p0 ← pyIndex parts 0
  let _sid ← pyParseInt p0
  let p1 ← pyIndex parts 1
  let arc ← pyLit p1
  let p6 ← pyIndex parts 6
  let c ← parseFloat p6
  let p7 ← pyIndex parts 7
  let f ← parseFloat p7
  .ok (arc, c, f)

def servicesLoop : List Str → ServData → Except PyErr ServData
  | [], acc => .ok acc
  | ln :: rest, acc => do
    let r ← parseServiceRow ln
    servicesLoop rest
      ⟨acc.services ++ [r.1], pyInsert acc.cs r.1 r.2.1, pyInsert acc.fs r.1 r.2.2⟩

def pyParseServices (lines : List Str) : Except PyErr ServData :=
  servicesLoop lines ⟨[], [], []⟩

/-- Result of `_parse_reqs`. -/
structure ReqData where
  reqs : List ℤ
  os : List (ℤ × ℤ)
  ds : List (ℤ × ℤ)
  alphas : List (ℤ × ℤ)
  betas : List (ℤ × ℤ)
  is_contract : List (ℤ × Bool)
  rhos : List (ℤ × ℚ)
  ws : List (ℤ × ℤ)
deriving DecidableEq, Inhabited

/-- One REQS row: 8 positional fields, converted in source order. -/
def parseReqRow (ln : Str) : Except PyErr (ℤ × ℤ × ℤ × ℤ × ℤ × Bool × ℚ × ℤ) := do
  let parts := splitOnChar '\t' ln
  let p0 ← pyIndex parts 0
  let k ← pyParseInt p0
  let p1 ← pyIndex parts 1
  let o ← pyParseInt p1
  let p2 ← pyIndex parts 2
  let d ← pyParseInt p2
  let p3 ← pyIndex parts 3
  let a ← pyParseInt p3
  let p4 ← pyIndex parts 4
  let b ← pyParseInt p4
  let p5 ← pyIndex parts 5
  let ic := (pyStripL p5).map Char.toLower = "true".toList
  let p6 ← pyIndex parts 6
  let rho ← parseFloat p6
  let p7 ← pyIndex parts 7
  let w ← pyParseInt p7
  .ok (k, o, d, a, b, ic, rho, w)

def reqsLoop : List Str → ReqData → Except PyErr ReqData
  | [], acc => .ok acc
  | ln :: rest, acc => do
    let r ← parseReqRow ln
    let k := r.1
    reqsLoop rest
      ⟨acc.reqs ++ [k], pyInsert acc.os k r.2.1, pyInsert acc.ds k r.2.2.1,
       pyInsert acc.alphas k r.2.2.2.1, pyInsert acc.betas k r.2.2.2.2.1,
       pyInsert acc.is_contract k r.2.2.2.2.2.1, pyInsert acc.rhos k r.2.2.2.2.2.2.1,
       pyInsert acc.ws k r.2.2.2.2.2.2.2⟩

def pyParseReqs (lines : List Str) : Except PyErr ReqData :=
  reqsLoop lines ⟨[], [], [], [], [], [], [], []⟩

/-- One HOLDING row: exactly two tab-separated fields are unpacked
(`ValueError` on any other count), an arc literal and a float cost. -/
def parseHoldingRow (ln : Str) : Except PyErr (Lit × ℚ) :=
  match splitOnChar '\t' ln with
  | [aStr, costStr] => do
    let a ← pyLit aStr
    let c ← parseFloat costStr
    .ok (a, c)
  | _ => .error (.valueError "holding row unpack".toList)

def holdingLoop : List Str → List Lit × List (Lit × ℚ) → Except PyErr (List Lit × List (Lit × ℚ))
  | [], acc => .ok acc
  | ln :: rest, acc => do
    let r ← parseHoldingRow ln
    holdingLoop rest (acc.1 ++ [r.1], pyInsert acc.2 r.1 r.2)

def pyParseHolding (lines : List Str) : Except PyErr (List Lit × List (Lit × ℚ)) :=
  holdingLoop lines ([], [])

/-- One PSI row: exactly four tab-separated fields. -/
def parsePsiRow (ln : Str) : Except PyErr (ℤ × ℤ × ℚ × ℚ) :=
  match splitOnChar '\t' ln with
  | [kStr, tStr, aStr, bStr] => do
    let k ← pyParseInt kStr
    let t ← pyParseInt tStr
    let ap ← parseFloat aStr
    let bp ← parseFloat bStr
    .ok (k, t, ap, bp)
  | _ => .error (.valueError "psi row unpack".toList)

def psiLoop : List Str → List ((ℤ × ℤ) × ℚ) × List ((ℤ × ℤ) × ℚ) →
    Except PyErr (List ((ℤ × ℤ) × ℚ) × List ((ℤ × ℤ) × ℚ))
  | [], acc => .ok acc
  | ln :: rest, acc => do
    let r ← parsePsiRow ln
    psiLoop rest (pyInsert acc.1 (r.1, r.2.1) r.2.2.1, pyInsert acc.2 (r.1, r.2.1) r.2.2.2)

def pyParsePsis (lines : List Str) :
    Except PyErr (List ((ℤ × ℤ) × ℚ) × List ((ℤ × ℤ) × ℚ)) :=
  psiLoop lines ([], [])

/-- One EIN/EOUT row: exactly two tab-separated fields, a time-node
literal and an arc-list literal; an empty second field denotes the empty
list without invoking the literal decoder. -/
def parseExecRow (ln : Str) : Except PyErr (Lit × Lit) :=
  match splitOnChar '\t' ln with
  | [tnStr, arcsStr] => do
    let tn ← pyLit tnStr
    if arcsStr = [] then .ok (tn, .list [])
    else do
      let arcs ← pyLit arcsStr
      .ok (tn, arcs)
  | _ => .error (.valueError "exec row unpack".toList)

def execLoop : List Str → List (Lit × Lit) → Except PyErr (List (Lit × Lit))
  | [], acc => .ok acc
  | ln :: rest, acc => do
    let r ← parseExecRow ln
    execLoop rest (pyInsert acc r.1 r.2)

def pyParseExecLists (lines : List Str) : Except PyErr (List (Lit × Lit)) :=
  execLoop lines []

/-! ## Instance assembler -/

/-- The fallible header-field extractions of the `SSNDInstance(...)`
constructor call, in Python's left-to-right argument evaluation order. -/
structure HFields where
  nameF : Str
  nodeSize : ℤ
  timePeriods : List Lit
  requestSize : ℤ
  servicePerArc : ℤ
  serviceCapacity : ℤ
  fastFrac : ℚ
  revenueRange : List Lit
  reqDemandRange : List Lit
  serviceCost : ℤ
  transCost : ℤ
  holdingCost : ℤ
  physArcs : List Lit
  scFloat : ℚ
deriving DecidableEq, Inhabited

def natStr (n : ℕ) : Str := Nat.toDigits 10 n

/-- The default instance name `ins_N{N}_K{K}_Freq{F}_sCap{C}`. -/
def defaultInsName (N K F C : ℕ) : Str :=
  "ins_N".toList ++ natStr N ++ "_K".toList ++ natStr K ++ "_Freq".toList ++ natStr F ++
    "_sCap".toList ++ natStr C

/-- `header.get("Name", default)`.  The parse stage only ever stores a
string under `Name`, so the `obj` case is unreachable. -/
def headerName (h : List (Str × HVal)) (N K F C : ℕ) : Str :=
  match alookup h kName with
  | some (.str s) => s
  | some (.obj _) => []
  | none => defaultInsName N K F C

/-- `d[k]` on a dict (`KeyError` when absent). -/
def hGet (h : List (Str × HVal)) (k : Str) : Except PyErr HVal :=
  match alookup h k with
  | some v => .ok v
  | none => .error (.keyError k)

/-- All fallible conversions of the assembler, in evaluation order.  The
final `toFloat` models `float(header["ServiceCapacity"])` inside the `us`
comprehension; in Python it is evaluated per service arc, but it cannot
fail once the earlier `int(header["ServiceCapacity"])` succeeded, so
evaluating it once is observationally equal. -/
def extractFields (N K F C : ℕ) (header : List (Str × HVal)) (arcsLit : Lit) :
    Except PyErr HFields := do
  let nm := headerName header N K F C
  let v1 ← hGet header kNodeSize
  let x1 ← toInt v1
  let v2 ← hGet header kTimePeriods
  let x2 ← toSeq v2
  let v3 ← hGet header kRequestSize
  let x3 ← toInt v3
  let v4 ← hGet header kServiceNoPerArc
  let x4 ← toInt v4
  let v5 ← hGet header kServiceCapacity
  let x5 ← toInt v5
  let v6 ← hGet header kFastFrac
  let x6 ← toFloat v6
  let v7 ← hGet header kRevenueRange
  let x7 ← toSeq v7
  let v8 ← hGet header kReqDemandRange
  let x8 ← toSeq v8
  let v9 ← hGet header kServiceCost
  let x9 ← toInt v9
  let v10 ← hGet header kTransCost
  let x10 ← toInt v10
  let v11 ← hGet header kHoldingCost
  let x11 ← toInt v11
  let x12 ← toSeq (.obj arcsLit)
  let v13 ← hGet header kServiceCapacity
  let x13 ← toFloat v13
  .ok ⟨nm, x1, x2, x3, x4, x5, x6, x7, x8, x9, x10, x11, x12, x13⟩

/-- The `us` dict comprehension
`{a: float(header["ServiceCapacity"]) for a in services}`. -/
def usOf (services : List Lit) (cap : ℚ) : List (Lit × ℚ) :=
  services.foldl (fun d a => pyInsert d a cap) []

/-- The `SSNDInstance` dataclass. -/
structure SSNDInstance where
  name : Str
  NodeSize : ℤ
  TimePeriods : List Lit
  RequestSize : ℤ
  ServiceNoPerArc : ℤ
  ServiceCapacity : ℤ
  fastFrac : ℚ
  RevenueRange : List Lit
  ReqDemandRange : List Lit
  ServiceCost : ℤ
  TransCost : ℤ
  HoldingCost : ℤ
  physical_arcs : List Lit
  services : List Lit
  cs : List (Lit × ℚ)
  fs : List (Lit × ℚ)
  us : List (Lit × ℚ)
  reqs : List ℤ
  os : List (ℤ × ℤ)
  ds : List (ℤ × ℤ)
  alphas : List (ℤ × ℤ)
  betas : List (ℤ × ℤ)
  is_contract : List (ℤ × Bool)
  rhos : List (ℤ × ℚ)
  ws : List (ℤ × ℤ)
  holding_arcs : List Lit
  chs : List (Lit × ℚ)
  alphaPsis : List ((ℤ × ℤ) × ℚ)
  betaPsis : List ((ℤ × ℤ) × ℚ)
  arcsEin : List (Lit × Lit)
  arcsEout : List (Lit × Lit)
deriving DecidableEq, Inhabited

/-- The pure part of the constructor call, once every fallible conversion
has produced a value. -/
def buildInstance (hf : HFields) (sv : ServData) (rq : ReqData)
    (aH : List Lit) (chs : List (Lit × ℚ))
    (aPsis bPsis : List ((ℤ × ℤ) × ℚ)) (ein eout : List (Lit × Lit)) : SSNDInstance :=
  { name := hf.nameF
    NodeSize := hf.nodeSize
    TimePeriods := hf.timePeriods
    RequestSize := hf.requestSize
    ServiceNoPerArc := hf.servicePerArc
    ServiceCapacity := hf.serviceCapacity
    fastFrac := hf.fastFrac
    RevenueRange := hf.revenueRange
    ReqDemandRange := hf.reqDemandRange
    ServiceCost := hf.serviceCost
    TransCost := hf.transCost
    HoldingCost := hf.holdingCost
    physical_arcs := hf.physArcs
    services := sv.services
    cs := sv.cs
    fs := sv.fs
    us := usOf sv.services hf.scFloat
    reqs := rq.reqs
    os := rq.os
    ds := rq.ds
    alphas := rq.alphas
    betas := rq.betas
    is_contract := rq.is_contract
    rhos := rq.rhos
    ws := rq.ws
    holding_arcs := aH
    chs := chs
    alphaPsis := aPsis
    betaPsis := bPsis
    arcsEin := ein
    arcsEout := eout }

/-- The Instance Assembler: the `SSNDInstance(...)` constructor call of
`load_instances_zip` (source lines 272-296). -/
def assembleInstance (N K F C : ℕ) (header : List (Str × HVal)) (arcsLit : Lit)
    (sv : ServData) (rq : ReqData) (aH : List Lit) (chs : List (Lit × ℚ))
    (aPsis bPsis : List ((ℤ × ℤ) × ℚ)) (ein eout : List (Lit × Lit)) :
    Except PyErr SSNDInstance :=
  (extractFields N K F C header arcsLit).map
    (fun hf => buildInstance hf sv rq aH chs aPsis bPsis ein eout)

/-- `arcs = _lit(blocks["ARCS"][0]) if "ARCS" in blocks else []`. -/
def parseArcsBlock (blocks : List (Sec × List Str)) : Except PyErr Lit :=
  match alookup blocks Sec.ARCS with
  | some b => do
    let s ← pyIndex b 0
    pyLit s
  | none => .ok (.list [])

/-- `_parse_holding(blocks.get("HOLDING", [])) if "HOLDING" in blocks else ([], {})`. -/
def holdStep (blocks : List (Sec × List Str)) :
    Except PyErr (List Lit × List (Lit × ℚ)) :=
  if (alookup blocks Sec.HOLDING).isSome then pyParseHolding (blocksGetD blocks Sec.HOLDING)
  else pure ([], [])

/-- `_parse_psis(blocks.get("PSI", [])) if "PSI" in blocks else ({}, {})`. -/
def psiStep (blocks : List (Sec × List Str)) :
    Except PyErr (List ((ℤ × ℤ) × ℚ) × List ((ℤ × ℤ) × ℚ)) :=
  if (alookup blocks Sec.PSI).isSome then pyParsePsis (blocksGetD blocks Sec.PSI)
  else pure ([], [])

/-- `_parse_exec_lists(blocks.get("EIN", [])) if "EIN" in blocks else {}`. -/
def einStep (blocks : List (Sec × List Str)) : Except PyErr (List (Lit × Lit)) :=
  if (alookup blocks Sec.EIN).isSome then pyParseExecLists (blocksGetD blocks Sec.EIN)
  else pure []

/-- `_parse_exec_lists(blocks.get("EOUT", [])) if "EOUT" in blocks else {}`. -/
def eoutStep (blocks : List (Sec × List Str)) : Except PyErr (List (Lit × Lit)) :=
  if (alookup blocks Sec.EOUT).isSome then pyParseExecLists (blocksGetD blocks Sec.EOUT)
  else pure []

/-- The per-file body of `load_instances_zip` (from `_section_blocks` to
the constructed `SSNDInstance`), over already-cleaned lines. -/
def loadInstanceLines (N K F C : ℕ) (lines : List Str) : Except PyErr SSNDInstance := do
  let blocks := sectionBlocksLines lines
  let header ← pyParseHeader (blocksGetD blocks Sec.HEADER)
  let arcsL ← parseArcsBlock blocks
  let sv ← pyParseServices (blocksGetD blocks Sec.SERVICES)
  let rq ← pyParseReqs (blocksGetD blocks Sec.REQS)
  let hold ← holdStep blocks
  let psis ← psiStep blocks
  let ein ← einStep blocks
  let eout ← eoutStep blocks
  assembleInstance N K F C header arcsL sv rq hold.1 hold.2 psis.1 psis.2 ein eout

/-- The per-file body of `load_instances_zip` on the raw file text. -/
def loadInstanceText (N K F C : ℕ) (text : String) : Except PyErr SSNDInstance :=
  loadInstanceLines N K F C ((pySplitlines text.toList).map pyCleanLine)

/-! ## Scenario file parser (`load_w_scenarios_zip` row handling) -/

/-- The draws field: `[int(x) for x in draws_str.split(";") if x != ""]`. -/
def parseDraws (s : Str) : Except PyErr (List ℤ) :=
  ((splitOnChar ';' s).filter (fun x => !(x = []))).mapM pyParseInt

/-! ## Filename matching (`_INSTANCE_RE.search(name.split("/")[-1])`) -/

/-- Literal-prefix lexer: consume `pat` or fail. -/
def lexLitPfx (pat : Str) (s : Str) : Option Str :=
  if s.take pat.length = pat then some (s.drop pat.length) else none

/-- Greedy non-empty digit run (equivalent to the regex `\d+` here since
every following pattern character is a non-digit). -/
def lexNat (s : Str) : Option (ℕ × Str) :=
  let d := s.takeWhile Char.isDigit
  if d = [] then none else some (digitsVal d, s.dropWhile Char.isDigit)

/-- The anchored pattern `ins_N\d+_K\d+_Freq\d+_sCap\d+\.txt$` matched at
the start of `s` and required to reach the end. -/
def matchInsAt (s : Str) : Option (ℕ × ℕ × ℕ × ℕ) := do
  let s1 ← lexLitPfx "ins_N".toList s
  let p1 ← lexNat s1
  let s2 ← lexLitPfx "_K".toList p1.2
  let p2 ← lexNat s2
  let s3 ← lexLitPfx "_Freq".toList p2.2
  let p3 ← lexNat s3
  let s4 ← lexLitPfx "_sCap".toList p3.2
  let p4 ← lexNat s4
  let s5 ← lexLitPfx ".txt".toList p4.2
  if s5 = [] then some (p1.1, p2.1, p3.1, p4.1) else none

/-- `re.search`: leftmost start position where the anchored pattern
matches. -/
def insSearch : Str → Option (ℕ × ℕ × ℕ × ℕ)
  | [] => matchInsAt []
  | x :: xs =>
    match matchInsAt (x :: xs) with
    | some r => some r
    | none => insSearch xs

/-- `name.split("/")[-1]`. -/
def baseName (s : Str) : Str := ((splitOnChar '/' s).getLast?).getD []

/-- The filename filter of `load_instances_zip`: search the instance
pattern in the base name of the archive entry. -/
def instanceKeyOf (s : Str) : Option (ℕ × ℕ × ℕ × ℕ) := insSearch (baseName s)

/-! ## General helper lemmas -/

theorem exBind_ok (a : α) (f : α → Except ε β) : (Except.ok a >>= f) = f a := rfl

theorem exBind_err (e : ε) (f : α → Except ε β) :
    ((Except.error e : Except ε α) >>= f) = .error e := rfl

theorem exBind_eq_ok {x : Except ε α} {f : α → Except ε β} {b : β}
    (h : (x >>= f) = .ok b) : ∃ a, x = .ok a ∧ f a = .ok b := by
  cases x with
  | ok a => exact ⟨a, rfl, h⟩
  | error e => exact Except.noConfusion h

theorem exMap_eq_ok {x : Except ε α} {f : α → β} {b : β}
    (h : x.map f = .ok b) : ∃ a, x = .ok a ∧ f a = b := by
  cases x with
  | ok a => exact ⟨a, rfl, Except.ok.inj h⟩
  | error e => exact Except.noConfusion h

theorem alookup_pyInsert [DecidableEq κ] (d : List (κ × ν)) (k k' : κ) (v : ν) :
    alookup (pyInsert d k v) k' = if k = k' then some v else alookup d k' := by
  induction d with
  | nil => by_cases h : k = k' <;> simp [pyInsert, alookup, h]
  | cons hd tl ih =>
    obtain ⟨k0, v0⟩ := hd
    by_cases h0 : k0 = k
    · subst h0
      by_cases h1 : k0 = k' <;> simp [pyInsert, alookup, h1]
    · by_cases h1 : k0 = k'
      · subst h1
        have : ¬ k = k0 := fun he => h0 he.symm
        simp [pyInsert, alookup, h0, this]
      · simp [pyInsert, alookup, h0, h1, ih]

theorem listFindAppend (p : α → Bool) (l₁ l₂ : List α) :
    (l₁ ++ l₂).find? p = ((l₁.find? p).elim (l₂.find? p) some) := by
  induction l₁ with
  | nil => simp
  | cons x xs ih =>
    by_cases h : p x <;> simp [List.find?, h, ih]

theorem listGetLastAppend (xs ys : List α) (h : ys ≠ []) :
    (xs ++ ys).getLast? = ys.getLast? := by
  induction xs with
  | nil => rfl
  | cons x xs ih =>
    rw [List.cons_append, List.getLast?_cons, ih]
    cases ys with
    | nil => exact absurd rfl h
    | cons y ys => simp [List.getLast?_cons]

theorem splitOnChar_ne_nil (c : Char) (s : Str) : splitOnChar c s ≠ [] := by
  cases s with
  | nil => simp [splitOnChar]
  | cons x xs =>
    by_cases h : x = c
    · simp [splitOnChar, h]
    · simp only [splitOnChar, if_neg h]
      cases hr : splitOnChar c xs with
      | nil => simp
      | cons a t => simp

theorem splitOnChar_append_sep (c : Char) (s : Str) :
    splitOnChar c (s ++ [c]) = splitOnChar c s ++ [[]] := by
  induction s with
  | nil => simp [splitOnChar]
  | cons x xs ih =>
    by_cases h : x = c
    · simp only [List.cons_append, splitOnChar, if_pos h, List.append_eq, ih]
    · simp only [List.cons_append, splitOnChar, if_neg h, List.append_eq, ih]
      cases hr : splitOnChar c xs with
      | nil => exact absurd hr (splitOnChar_ne_nil c xs)
      | cons a t => simp [hr]

theorem splitOnChar_append_mid (c : Char) (a b : Str) :
    splitOnChar c (a ++ c :: b) = splitOnChar c a ++ splitOnChar c b := by
  induction a with
  | nil => simp [splitOnChar]
  | cons x xs ih =>
    by_cases h : x = c
    · simp only [List.cons_append, splitOnChar, if_pos h, List.append_eq, ih]
    · simp only [List.cons_append, splitOnChar, if_neg h, List.append_eq, ih]
      cases hr : splitOnChar c xs with
      | nil => exact absurd hr (splitOnChar_ne_nil c xs)
      | cons hd t => simp [hr]

theorem insSearch_isSome_of_suffix (p m : Str) (h : (matchInsAt m).isSome = true) :
    (insSearch (p ++ m)).isSome = true := by
  induction p with
  | nil =>
    cases m with
    | nil => simpa [insSearch] using h
    | cons x xs =>
      simp only [List.nil_append, insSearch]
      cases hm : matchInsAt (x :: xs) with
      | some r => simp
      | none => rw [hm] at h; exact absurd h (by simp)
  | cons y p' ih =>
    simp only [List.cons_append, insSearch]
    cases hm : matchInsAt (y :: (p' ++ m)) with
    | some r => simp
    | none => exact ih

theorem baseName_append (d n : Str) : baseName (d ++ '/' :: n) = baseName n := by
  unfold baseName
  rw [splitOnChar_append_mid, listGetLastAppend _ _ (splitOnChar_ne_nil '/' n)]

theorem pyIndex_err {xs : List α} {i : Nat} {e : PyErr} (h : pyIndex xs i = .error e) :
    e = .indexError := by
  unfold pyIndex at h
  split at h
  · exact Except.noConfusion h
  · exact (Except.error.inj h).symm

theorem pyParseInt_err {s : Str} {e : PyErr} (h : pyParseInt s = .error e) :
    e.isMalformedRow = false := by
  simp only [pyParseInt] at h
  split at h
  · exact Except.noConfusion h
  · injection h with he
    subst he
    rfl

theorem parseFloat_err {s : Str} {e : PyErr} (h : parseFloat s = .error e) :
    e.isMalformedRow = false := by
  simp only [parseFloat] at h
  split at h
  · split at h
    · exact Except.noConfusion h
    · injection h with he
      subst he
      rfl
  · injection h with he
    subst he
    rfl

theorem pyLit_err {x : Str} {e : PyErr} (h : pyLit x = .error e) :
    e.isMalformedRow = false := by
  simp only [pyLit] at h
  split at h
  · split at h
    · split at h
      · injection h with he
        subst he
        rfl
      · exact Except.noConfusion h
      · exact Except.noConfusion h
    · injection h with he
      subst he
      rfl
  · injection h with he
    subst he
    rfl

theorem pyInsert_isSome_iff [DecidableEq κ] (d : List (κ × ν)) (k0 k : κ) (v : ν)
    (S : List κ) (hbase : (alookup d k).isSome = true ↔ k ∈ S) :
    (alookup (pyInsert d k0 v) k).isSome = true ↔ k ∈ S ++ [k0] := by
  rw [alookup_pyInsert]
  by_cases h : k0 = k
  · subst h
    simp
  · have h' : ¬ k = k0 := fun he => h he.symm
    simp [h, h', hbase, List.mem_append]

theorem alookup_foldl_const (cap : ℚ) (S : List Lit) :
    ∀ (d : List (Lit × ℚ)) (a : Lit),
    alookup (S.foldl (fun d a => pyInsert d a cap) d) a =
      if a ∈ S then some cap else alookup d a := by
  induction S with
  | nil => intro d a; simp
  | cons b S' ih =>
    intro d a
    simp only [List.foldl_cons, ih]
    by_cases hb : a ∈ S'
    · simp [hb]
    · by_cases hba : b = a
      · subst hba
        simp [hb, alookup_pyInsert]
      · have h' : ¬ a = b := fun he => hba he.symm
        simp [hb, h', hba, alookup_pyInsert]

theorem usOf_mem {S : List Lit} {cap : ℚ} {a : Lit} (h : a ∈ S) :
    alookup (usOf S cap) a = some cap := by
  unfold usOf
  rw [alookup_foldl_const]
  simp [h]

theorem usOf_isSome_iff (S : List Lit) (cap : ℚ) (a : Lit) :
    (alookup (usOf S cap) a).isSome = true ↔ a ∈ S := by
  unfold usOf
  rw [alookup_foldl_const]
  by_cases h : a ∈ S <;> simp [h, alookup]

theorem servicesLoop_keyset (ls : List Str) :
    ∀ (acc res : ServData), servicesLoop ls acc = .ok res →
    (∀ a, ((alookup acc.cs a).isSome = true ↔ a ∈ acc.services) ∧
          ((alookup acc.fs a).isSome = true ↔ a ∈ acc.services)) →
    ∀ a, ((alookup res.cs a).isSome = true ↔ a ∈ res.services) ∧
         ((alookup res.fs a).isSome = true ↔ a ∈ res.services) := by
  induction ls with
  | nil =>
    intro acc res h hinv
    rw [← Except.ok.inj h]
    exact hinv
  | cons ln rest ih =>
    intro acc res h hinv
    simp only [servicesLoop] at h
    obtain ⟨r, _, h2⟩ := exBind_eq_ok h
    refine ih _ res h2 ?_
    intro a
    exact ⟨pyInsert_isSome_iff acc.cs r.1 a r.2.1 acc.services (hinv a).1,
           pyInsert_isSome_iff acc.fs r.1 a r.2.2 acc.services (hinv a).2⟩

theorem reqsLoop_keyset (ls : List Str) :
    ∀ (acc res : ReqData), reqsLoop ls acc = .ok res →
    (∀ k, ((alookup acc.os k).isSome = true ↔ k ∈ acc.reqs) ∧
          ((alookup acc.ds k).isSome = true ↔ k ∈ acc.reqs) ∧
          ((alookup acc.alphas k).isSome = true ↔ k ∈ acc.reqs) ∧
          ((alookup acc.betas k).isSome = true ↔ k ∈ acc.reqs) ∧
          ((alookup acc.is_contract k).isSome = true ↔ k ∈ acc.reqs) ∧
          ((alookup acc.rhos k).isSome = true ↔ k ∈ acc.reqs) ∧
          ((alookup acc.ws k).isSome = true ↔ k ∈ acc.reqs)) →
    ∀ k, ((alookup res.os k).isSome = true ↔ k ∈ res.reqs) ∧
         ((alookup res.ds k).isSome = true ↔ k ∈ res.reqs) ∧
         ((alookup res.alphas k).isSome = true ↔ k ∈ res.reqs) ∧
         ((alookup res.betas k).isSome = true ↔ k ∈ res.reqs) ∧
         ((alookup res.is_contract k).isSome = true ↔ k ∈ res.reqs) ∧
         ((alookup res.rhos k).isSome = true ↔ k ∈ res.reqs) ∧
         ((alookup res.ws k).isSome = true ↔ k ∈ res.reqs) := by
  induction ls with
  | nil =>
    intro acc res h hinv
    rw [← Except.ok.inj h]
    exact hinv
  | cons ln rest ih =>
    intro acc res h hinv
    simp only [reqsLoop] at h
    obtain ⟨r, _, h2⟩ := exBind_eq_ok h
    refine ih _ res h2 ?_
    intro k
    obtain ⟨i1, i2, i3, i4, i5, i6, i7⟩ := hinv k
    exact ⟨pyInsert_isSome_iff acc.os r.1 k _ acc.reqs i1,
           pyInsert_isSome_iff acc.ds r.1 k _ acc.reqs i2,
           pyInsert_isSome_iff acc.alphas r.1 k _ acc.reqs i3,
           pyInsert_isSome_iff acc.betas r.1 k _ acc.reqs i4,
           pyInsert_isSome_iff acc.is_contract r.1 k _ acc.reqs i5,
           pyInsert_isSome_iff acc.rhos r.1 k _ acc.reqs i6,
           pyInsert_isSome_iff acc.ws r.1 k _ acc.reqs i7⟩

theorem hGet_ok {h : List (Str × HVal)} {k : Str} {v : HVal} (hh : hGet h k = .ok v) :
    alookup h k = some v := by
  unfold hGet at hh
  split at hh
  next v' heq => rw [heq, Except.ok.inj hh]
  next => exact Except.noConfusion hh

theorem assembleInstance_ok {N K F C : ℕ} {header : List (Str × HVal)} {arcsLit : Lit}
    {sv : ServData} {rq : ReqData} {aH : List Lit} {chs : List (Lit × ℚ)}
    {aPsis bPsis : List ((ℤ × ℤ) × ℚ)} {ein eout : List (Lit × Lit)} {inst : SSNDInstance}
    (h : assembleInstance N K F C header arcsLit sv rq aH chs aPsis bPsis ein eout = .ok inst) :
    ∃ hf, extractFields N K F C header arcsLit = .ok hf ∧
      inst = buildInstance hf sv rq aH chs aPsis bPsis ein eout := by
  unfold assembleInstance at h
  obtain ⟨hf, h1, h2⟩ := exMap_eq_ok h
  exact ⟨hf, h1, h2.symm⟩

theorem loadInstanceLines_ok {N K F C : ℕ} {lines : List Str} {inst : SSNDInstance}
    (h : loadInstanceLines N K F C lines = .ok inst) :
    ∃ header arcsL sv rq hold psis ein eout,
      pyParseHeader (blocksGetD (sectionBlocksLines lines) Sec.HEADER) = .ok header ∧
      parseArcsBlock (sectionBlocksLines lines) = .ok arcsL ∧
      pyParseServices (blocksGetD (sectionBlocksLines lines) Sec.SERVICES) = .ok sv ∧
      pyParseReqs (blocksGetD (sectionBlocksLines lines) Sec.REQS) = .ok rq ∧
      holdStep (sectionBlocksLines lines) = .ok hold ∧
      psiStep (sectionBlocksLines lines) = .ok psis ∧
      einStep (sectionBlocksLines lines) = .ok ein ∧
      eoutStep (sectionBlocksLines lines) = .ok eout ∧
      assembleInstance N K F C header arcsL sv rq hold.1 hold.2 psis.1 psis.2 ein eout
        = .ok inst := by
  simp only [loadInstanceLines] at h
  obtain ⟨header, hh, h⟩ := exBind_eq_ok h
  obtain ⟨arcsL, ha, h⟩ := exBind_eq_ok h
  obtain ⟨sv, hs, h⟩ := exBind_eq_ok h
  obtain ⟨rq, hrq, h⟩ := exBind_eq_ok h
  obtain ⟨hold, hhold, h⟩ := exBind_eq_ok h
  obtain ⟨psis, hpsis, h⟩ := exBind_eq_ok h
  obtain ⟨ein, hein, h⟩ := exBind_eq_ok h
  obtain ⟨eout, heout, h⟩ := exBind_eq_ok h
  exact ⟨header, arcsL, sv, rq, hold, psis, ein, eout, hh, ha, hs, hrq, hhold, hpsis, hein,
    heout, h⟩

theorem headerLoop_scap (ls : List Str) :
    ∀ (acc hdr : List (Str × HVal)), headerLoop ls acc = .ok hdr →
    (∀ v, alookup acc kServiceCapacity = some v → ∃ n, v = .obj (.int n)) →
    ∀ v, alookup hdr kServiceCapacity = some v → ∃ n, v = .obj (.int n) := by
  induction ls with
  | nil =>
    intro acc hdr hh hinv
    rw [← Except.ok.inj hh]
    exact hinv
  | cons ln rest ih =>
    intro acc hdr hh hinv
    simp only [headerLoop] at hh
    split at hh
    case isTrue hsp =>
      split at hh
      case isTrue hk =>
        obtain ⟨n, _, hh⟩ := exBind_eq_ok hh
        refine ih _ _ hh ?_
        intro v hv
        rw [alookup_pyInsert] at hv
        split at hv
        · exact ⟨n, (Option.some.inj hv).symm⟩
        · exact hinv v hv
      case isFalse hk =>
        have hne : ¬ headKey ln = kServiceCapacity := fun he =>
          hk (by rw [he]; decide)
        split at hh
        case isTrue hk2 =>
          obtain ⟨q, _, hh⟩ := exBind_eq_ok hh
          refine ih _ _ hh ?_
          intro v hv
          rw [alookup_pyInsert, if_neg hne] at hv
          exact hinv v hv
        case isFalse hk2 =>
          split at hh
          case isTrue hk3 =>
            obtain ⟨l, _, hh⟩ := exBind_eq_ok hh
            refine ih _ _ hh ?_
            intro v hv
            rw [alookup_pyInsert, if_neg hne] at hv
            exact hinv v hv
          case isFalse hk3 =>
            split at hh
            case isTrue hk4 =>
              obtain ⟨th, _, hh⟩ := exBind_eq_ok hh
              obtain ⟨a, _, hh⟩ := exBind_eq_ok hh
              obtain ⟨b, _, hh⟩ := exBind_eq_ok hh
              refine ih _ _ hh ?_
              intro v hv
              rw [alookup_pyInsert, if_neg (by decide : ¬ kHoldingCost = kServiceCapacity),
                  alookup_pyInsert, if_neg (by decide : ¬ kTransCost = kServiceCapacity)] at hv
              exact hinv v hv
            case isFalse hk4 =>
              refine ih _ _ hh ?_
              intro v hv
              rw [alookup_pyInsert, if_neg hne] at hv
              exact hinv v hv
    case isFalse hsp => exact Except.noConfusion hh

theorem extractFields_scap {N K F C : ℕ} {header : List (Str × HVal)} {arcsLit : Lit}
    {hf : HFields} (h : extractFields N K F C header arcsLit = .ok hf) :
    ∃ v, alookup header kServiceCapacity = some v ∧
      toInt v = .ok hf.serviceCapacity ∧ toFloat v = .ok hf.scFloat := by
  simp only [extractFields] at h
  obtain ⟨v1, hv1, h⟩ := exBind_eq_ok h
  obtain ⟨x1, hx1, h⟩ := exBind_eq_ok h
  obtain ⟨v2, hv2, h⟩ := exBind_eq_ok h
  obtain ⟨x2, hx2, h⟩ := exBind_eq_ok h
  obtain ⟨v3, hv3, h⟩ := exBind_eq_ok h
  obtain ⟨x3, hx3, h⟩ := exBind_eq_ok h
  obtain ⟨v4, hv4, h⟩ := exBind_eq_ok h
  obtain ⟨x4, hx4, h⟩ := exBind_eq_ok h
  obtain ⟨v5, hv5, h⟩ := exBind_eq_ok h
  obtain ⟨x5, hx5, h⟩ := exBind_eq_ok h
  obtain ⟨v6, hv6, h⟩ := exBind_eq_ok h
  obtain ⟨x6, hx6, h⟩ := exBind_eq_ok h
  obtain ⟨v7, hv7, h⟩ := exBind_eq_ok h
  obtain ⟨x7, hx7, h⟩ := exBind_eq_ok h
  obtain ⟨v8, hv8, h⟩ := exBind_eq_ok h
  obtain ⟨x8, hx8, h⟩ := exBind_eq_ok h
  obtain ⟨v9, hv9, h⟩ := exBind_eq_ok h
  obtain ⟨x9, hx9, h⟩ := exBind_eq_ok h
  obtain ⟨v10, hv10, h⟩ := exBind_eq_ok h
  obtain ⟨x10, hx10, h⟩ := exBind_eq_ok h
  obtain ⟨v11, hv11, h⟩ := exBind_eq_ok h
  obtain ⟨x11, hx11, h⟩ := exBind_eq_ok h
  obtain ⟨x12, hx12, h⟩ := exBind_eq_ok h
  obtain ⟨v13, hv13, h⟩ := exBind_eq_ok h
  obtain ⟨x13, hx13, h⟩ := exBind_eq_ok h
  have hinj := Except.ok.inj h
  subst hinj
  have hv : v5 = v13 := Option.some.inj ((hGet_ok hv5).symm.trans (hGet_ok hv13))
  refine ⟨v13, hGet_ok hv13, ?_, hx13⟩
  rw [← hv]
  exact hx5

theorem pyIndex_ok {xs : List α} {i : Nat} {a : α} (h : pyIndex xs i = .ok a) :
    xs.get? i = some a := by
  unfold pyIndex at h
  split at h
  next a' heq => rw [heq, Except.ok.inj h]
  next => exact Except.noConfusion h

theorem parseServiceRow_sevenFields {ln : Str} (h7 : (splitOnChar '\t' ln).length = 7) :
    ∃ e, parseServiceRow ln = .error e ∧ e.isMalformedRow = false := by
  simp only [parseServiceRow]
  cases hi0 : pyIndex (splitOnChar '\t' ln) 0 with
  | error e => exact ⟨e, exBind_err _ _, by rw [pyIndex_err hi0]; rfl⟩
  | ok p0 =>
    simp only [exBind_ok]
    cases hs0 : pyParseInt p0 with
    | error e => exact ⟨e, exBind_err _ _, pyParseInt_err hs0⟩
    | ok sid =>
      simp only [exBind_ok]
      cases hi1 : pyIndex (splitOnChar '\t' ln) 1 with
      | error e => exact ⟨e, exBind_err _ _, by rw [pyIndex_err hi1]; rfl⟩
      | ok p1 =>
        simp only [exBind_ok]
        cases hl1 : pyLit p1 with
        | error e => exact ⟨e, exBind_err _ _, pyLit_err hl1⟩
        | ok arc =>
          simp only [exBind_ok]
          cases hi6 : pyIndex (splitOnChar '\t' ln) 6 with
          | error e => exact ⟨e, exBind_err _ _, by rw [pyIndex_err hi6]; rfl⟩
          | ok p6 =>
            simp only [exBind_ok]
            cases hf6 : parseFloat p6 with
            | error e => exact ⟨e, exBind_err _ _, parseFloat_err hf6⟩
            | ok c =>
              simp only [exBind_ok]
              cases hi7 : pyIndex (splitOnChar '\t' ln) 7 with
              | error e =>
                exact ⟨e, exBind_err _ _, by rw [pyIndex_err hi7]; rfl⟩
              | ok p7 =>
                have hg := pyIndex_ok hi7
                have hlt : 7 < (splitOnChar '\t' ln).length := by
                  by_contra hge
                  rw [List.get?_eq_none.mpr (by omega)] at hg
                  exact Option.noConfusion hg
                omega

/-- C2 (amended): a SERVICES row splitting into 7 tab-separated fields
makes the row parser fail, but the failure is a bare `IndexError` from
the out-of-range access `parts[7]` (or an earlier conversion error); the
code has no `MalformedRowError` and the error names neither the section
nor the line. -/
theorem C2_services_seven_fields (acc : ServData) (ln : Str) (rest : List Str)
    (h7 : (splitOnChar '\t' ln).length = 7) :
    exIsOk (servicesLoop (ln :: rest) acc) = false ∧
    exErrIsMalformedRow (servicesLoop (ln :: rest) acc) = false := by
  obtain ⟨e, he, hm⟩ := parseServiceRow_sevenFields h7
  have hrw : servicesLoop (ln :: rest) acc = .error e := by
    simp only [servicesLoop, he, exBind_err]
  rw [hrw]
  exact ⟨rfl, by simp [exErrIsMalformedRow, hm]⟩

/-- The 7-field SERVICES row used as a concrete input. -/
def svc7Row : Str := "1\t((1,0),(2,1))\t1\t0\t2\t1\t2.0".toList

/-- C2 (counterexample to the claim as stated): the concrete 7-field
SERVICES row makes `_parse_services` fail with a bare `IndexError`, not
with a `MalformedRowError` naming "SERVICES" and the raw line. -/
theorem C2_counterexample :
    (splitOnChar '\t' svc7Row).length = 7 ∧
    pyParseServices [svc7Row] = .error .indexError ∧
    PyErr.indexError.isMalformedRow = false :=
  ⟨by decide, by decide, rfl⟩

theorem C2_services_seven_fields_witness :
    (splitOnChar '\t' svc7Row).length = 7 ∧
    exIsOk (servicesLoop [svc7Row] ⟨[], [], []⟩) = false ∧
    exErrIsMalformedRow (servicesLoop [svc7Row] ⟨[], [], []⟩) = false :=
  ⟨by decide,
   (C2_services_seven_fields ⟨[], [], []⟩ svc7Row [] (by decide)).1,
   (C2_services_seven_fields ⟨[], [], []⟩ svc7Row [] (by decide)).2⟩

/-- C9: the semicolon-separated draws field drops empty substrings
(between consecutive semicolons and after a trailing one) instead of
erroring: `"3;;5;"` decodes to `[3, 5]`, the same as `"3;5"`, and a
trailing semicolon never changes the decoded list. -/
theorem C9_scenario_draws :
    parseDraws "3;;5;".toList = .ok [3, 5] ∧
    parseDraws "3;5".toList = .ok [3, 5] ∧
    ∀ s : Str, parseDraws (s ++ [';']) = parseDraws s := by
  refine ⟨by decide, by decide, ?_⟩
  intro s
  unfold parseDraws
  rw [splitOnChar_append_sep, List.filter_append]
  simp [List.filter]

/-- C10: instance filename matching is an end-anchored search on the base
name: a base name that merely ends in the pattern is accepted with the
digits as key, entries in subdirectories are matched by base name alone,
and appending any prefix to a matching name never makes it unmatched. -/
theorem C10_filename_matching :
    instanceKeyOf "myins_N1_K2_Freq3_sCap4.txt".toList = some (1, 2, 3, 4) ∧
    instanceKeyOf "sub/dir/ins_N10_K5_Freq2_sCap20.txt".toList = some (10, 5, 2, 20) ∧
    (∀ p m : Str, (matchInsAt m).isSome = true → (insSearch (p ++ m)).isSome = true) ∧
    ∀ d n : Str, instanceKeyOf (d ++ '/' :: n) = instanceKeyOf n := by
  refine ⟨by decide, by decide, insSearch_isSome_of_suffix, ?_⟩
  intro d n
  unfold instanceKeyOf
  rw [baseName_append]

theorem C10_filename_matching_witness :
    (matchInsAt "ins_N7_K8_Freq9_sCap10.txt".toList).isSome = true ∧
    (insSearch ("xy".toList ++ "ins_N7_K8_Freq9_sCap10.txt".toList)).isSome = true :=
  ⟨by decide,
   C10_filename_matching.2.2.1 "xy".toList "ins_N7_K8_Freq9_sCap10.txt".toList (by decide)⟩

/-! ## Header-scan characterization (Section Splitter) -/

/-- A line the header scan turns into a key-value pair: it contains a
space (such a line is automatically non-blank). -/
def headerQual (l : Str) : Bool := l.elem ' '

def headerFoldStep (d : List (Str × Str)) (l : Str) : List (Str × Str) :=
  pyInsert d (headKey l) (headVal l)

/-- The lines before the first `"Arcs "`-prefixed line. -/
def preArcs (ls : List Str) : List Str := ls.takeWhile (fun l => !(isArcsLine l))

/-- The suffix starting at the first `"Arcs "`-prefixed line. -/
def postArcs (ls : List Str) : List Str := ls.dropWhile (fun l => !(isArcsLine l))

theorem headerScan_eq (ls : List Str) : ∀ d,
    headerScan ls d = (((preArcs ls).filter headerQual).foldl headerFoldStep d, postArcs ls) := by
  induction ls with
  | nil => intro d; simp [headerScan, preArcs, postArcs]
  | cons l rest ih =>
    intro d
    by_cases ha : isArcsLine l
    · simp [headerScan, ha, preArcs, postArcs, List.takeWhile_cons, List.dropWhile_cons]
    · by_cases hb : l = []
      · subst hb
        have hq : headerQual ([] : Str) = false := rfl
        simp [headerScan, ha, preArcs, postArcs, List.takeWhile_cons, List.dropWhile_cons,
          hq, ih d]
      · by_cases hc : l.elem ' '
        · have hq : headerQual l = true := hc
          have hm : ' ' ∈ l := List.elem_iff.mp hc
          simp [headerScan, ha, hb, hc, hm, preArcs, postArcs, List.takeWhile_cons,
            List.dropWhile_cons, hq, List.filter_cons, headerFoldStep, ih]
        · have hq : headerQual l = false := by simpa [headerQual] using hc
          have hm : ¬ (' ' ∈ l) := fun h => hc (List.elem_iff.mpr h)
          simp [headerScan, ha, hb, hc, hm, preArcs, postArcs, List.takeWhile_cons,
            List.dropWhile_cons, hq, List.filter_cons, ih d]

theorem foldl_headerStep_lookup (ls : List Str) : ∀ (d : List (Str × Str)) (k : Str),
    alookup (ls.foldl headerFoldStep d) k =
      match ls.reverse.find? (fun l => decide (headKey l = k)) with
      | some l => some (headVal l)
      | none => alookup d k := by
  induction ls with
  | nil => intro d k; simp
  | cons l rest ih =>
    intro d k
    rw [List.foldl_cons, ih, List.reverse_cons, listFindAppend]
    cases hf : rest.reverse.find? (fun l => decide (headKey l = k)) with
    | some x => simp
    | none =>
      simp only [Option.elim]
      unfold headerFoldStep
      rw [alookup_pyInsert]
      by_cases hk : headKey l = k
      · simp [List.find?, hk]
      · simp [List.find?, hk]

/-- C4 (amended): in the Section Splitter's header scan, the HEADER
section is built from exactly the non-blank lines containing a space
that precede the first `"Arcs "`-prefixed line — each such line is split
at its first space, a later line with the same key overwriting an
earlier one; blank lines and space-free lines are skipped. -/
theorem C4_header_scan (lines : List Str) :
    alookup (sectionBlocksLines lines) Sec.HEADER =
      some ((((preArcs lines).filter headerQual).foldl headerFoldStep []).map
        (fun kv => kv.1 ++ ' ' :: kv.2)) ∧
    ∀ k, alookup (((preArcs lines).filter headerQual).foldl headerFoldStep []) k =
      (((preArcs lines).filter headerQual).reverse.find?
        (fun l => decide (headKey l = k))).map headVal := by
  constructor
  · unfold sectionBlocksLines
    rw [headerScan_eq]
    cases hp : postArcs lines with
    | nil => simp [alookup]
    | cons l rest2 => by_cases hl : isArcsLine l <;> simp [hl, alookup]
  · intro k
    rw [foldl_headerStep_lookup]
    cases hf : ((preArcs lines).filter headerQual).reverse.find?
        (fun l => decide (headKey l = k)) <;>
      simp [hf, alookup]

/-- C4 (counterexample to the claim as stated): the non-blank line
`"Foo"` precedes the first `"Arcs "` line but contains no space; the
scan skips it, so the HEADER section it was claimed to contribute to is
empty. -/
theorem C4_counterexample :
    alookup (sectionBlocksLines ["Foo".toList, "Arcs [(1,2)]".toList]) Sec.HEADER =
      some [] ∧
    "Foo".toList ≠ ([] : Str) ∧ isArcsLine "Foo".toList = false :=
  ⟨by decide, by decide, by decide⟩

/-! ## Optional sections -/

theorem holdStep_absent {blocks : List (Sec × List Str)}
    (h : alookup blocks Sec.HOLDING = none) : holdStep blocks = .ok ([], []) := by
  simp [holdStep, h, pure, Except.pure]

theorem psiStep_absent {blocks : List (Sec × List Str)}
    (h : alookup blocks Sec.PSI = none) : psiStep blocks = .ok ([], []) := by
  simp [psiStep, h, pure, Except.pure]

theorem einStep_absent {blocks : List (Sec × List Str)}
    (h : alookup blocks Sec.EIN = none) : einStep blocks = .ok [] := by
  simp [einStep, h, pure, Except.pure]

theorem eoutStep_absent {blocks : List (Sec × List Str)}
    (h : alookup blocks Sec.EOUT = none) : eoutStep blocks = .ok [] := by
  simp [eoutStep, h, pure, Except.pure]

/-! ## Concrete example files -/

/-- The spec's end-to-end example file, with the HEADER lines exactly as
the spec lists them (in particular, no `ServiceCost` line). -/
def fileC1 : String :=
  "NodeSize 3\nTimePeriods [0,1]\nRequestSize 1\nServiceNoPerArc 1\nServiceCapacity 50\nFastServiceRatio 0.5\nRevenueRange (1,2),(3,4)\nReqDemandRange (1,10)\nTrans/HoldingCost (2,1)\nName T1\nArcs [(1,2),(2,3)]\n\nserviceID\tServices\torigin\talpha\tdestination\tbeta\tTranCost\tfs\n1\t((1,0),(2,1))\t1\t0\t2\t1\t2.0\t5.0\n\nreqs\torigins\tdestinations\talphas\tbetas\tcontract_based\trhos\tws\n1\t1\t2\t0\t1\ttrue\t3.5\t10\n"

/-- The same file with a `ServiceCost 1` HEADER line added (the minimal
change that lets the assembler succeed). -/
def fileC1A : String :=
  "NodeSize 3\nTimePeriods [0,1]\nRequestSize 1\nServiceNoPerArc 1\nServiceCapacity 50\nFastServiceRatio 0.5\nRevenueRange (1,2),(3,4)\nReqDemandRange (1,10)\nTrans/HoldingCost (2,1)\nServiceCost 1\nName T1\nArcs [(1,2),(2,3)]\n\nserviceID\tServices\torigin\talpha\tdestination\tbeta\tTranCost\tfs\n1\t((1,0),(2,1))\t1\t0\t2\t1\t2.0\t5.0\n\nreqs\torigins\tdestinations\talphas\tbetas\tcontract_based\trhos\tws\n1\t1\t2\t0\t1\ttrue\t3.5\t10\n"

/-- The cleaned lines of `fileC1A`. -/
def linesC1A : List Str := (pySplitlines fileC1A.toList).map pyCleanLine

/-- The instance parsed from `fileC1A`. -/
def instC1A : SSNDInstance := (loadInstanceText 3 1 1 50 fileC1A).toOption.getD default

/-- The service arc `((1,0),(2,1))` of the example. -/
def arcA : Lit := .tup [.tup [.int 1, .int 0], .tup [.int 2, .int 1]]

def svcRow : Str := "1\t((1,0),(2,1))\t1\t0\t2\t1\t2.0\t5.0".toList

def reqRow : Str := "1\t1\t2\t0\t1\ttrue\t3.5\t10".toList

/-- `_parse_services` on two identical rows: the services list keeps the
duplicate, each dict keeps one key. -/
def svDup : ServData := ⟨[arcA, arcA], [(arcA, mkRat 2 1)], [(arcA, mkRat 5 1)]⟩

/-- `_parse_reqs` on two identical rows. -/
def rqDup : ReqData :=
  ⟨[1, 1], [(1, 1)], [(1, 2)], [(1, 0)], [(1, 1)], [(1, true)], [(1, mkRat 7 2)], [(1, 10)]⟩

/-! ## C5-C8 -/

/-- C5 (amended): for every successfully parsed instance, the SET of
Arcs appearing as keys of `cs`, `fs` and `us` equals the set of Arcs in
the services list (membership coincides); with duplicate SERVICES rows
the services list keeps duplicates while each dict keeps a single key,
so equality holds only as sets, not as multisets. -/
theorem C5_cost_key_sets (N K F C : ℕ) (lines : List Str) (inst : SSNDInstance)
    (h : loadInstanceLines N K F C lines = .ok inst) :
    ∀ a, ((alookup inst.cs a).isSome = true ↔ a ∈ inst.services) ∧
         ((alookup inst.fs a).isSome = true ↔ a ∈ inst.services) ∧
         ((alookup inst.us a).isSome = true ↔ a ∈ inst.services) := by
  obtain ⟨header, arcsL, sv, rq, hold, psis, ein, eout, hh, ha, hs, hrq, hhold, hpsis,
    hein, heout, hasm⟩ := loadInstanceLines_ok h
  obtain ⟨hf, hex, hinst⟩ := assembleInstance_ok hasm
  subst hinst
  have hsv := servicesLoop_keyset _ ⟨[], [], []⟩ sv hs (by intro a; simp [alookup])
  intro a
  exact ⟨(hsv a).1, (hsv a).2, usOf_isSome_iff sv.services hf.scFloat a⟩

/-- C5 (counterexample to the claim as stated): two identical SERVICES
rows parse successfully, but the multiset of `cs` keys (one copy of the
arc) differs from the multiset of services (two copies). -/
theorem C5_counterexample :
    pyParseServices [svcRow, svcRow] = .ok svDup ∧
    Multiset.ofList (svDup.cs.map Prod.fst) ≠ Multiset.ofList svDup.services := by
  refine ⟨by decide, ?_⟩
  intro hEq
  have hc := congrArg Multiset.card hEq
  simp [svDup] at hc

theorem C5_cost_key_sets_witness :
    loadInstanceLines 3 1 1 50 linesC1A = .ok instC1A ∧
    (((alookup instC1A.cs arcA).isSome = true ↔ arcA ∈ instC1A.services) ∧
     ((alookup instC1A.fs arcA).isSome = true ↔ arcA ∈ instC1A.services) ∧
     ((alookup instC1A.us arcA).isSome = true ↔ arcA ∈ instC1A.services)) :=
  ⟨by decide, C5_cost_key_sets 3 1 1 50 linesC1A instC1A (by decide) arcA⟩

/-- C6 (amended): for every successfully parsed instance, a request id
is a key of `os`/`ds`/`alphas`/`betas`/`is_contract`/`rhos`/`ws` exactly
when it occurs in the reqs list (so the mappings are total over `reqs`);
with duplicate REQS rows the id occurs several times in `reqs` while
each dict keeps a single entry, so ids need not be unique in `reqs`. -/
theorem C6_req_key_sets (N K F C : ℕ) (lines : List Str) (inst : SSNDInstance)
    (h : loadInstanceLines N K F C lines = .ok inst) :
    ∀ k, ((alookup inst.os k).isSome = true ↔ k ∈ inst.reqs) ∧
         ((alookup inst.ds k).isSome = true ↔ k ∈ inst.reqs) ∧
         ((alookup inst.alphas k).isSome = true ↔ k ∈ inst.reqs) ∧
         ((alookup inst.betas k).isSome = true ↔ k ∈ inst.reqs) ∧
         ((alookup inst.is_contract k).isSome = true ↔ k ∈ inst.reqs) ∧
         ((alookup inst.rhos k).isSome = true ↔ k ∈ inst.reqs) ∧
         ((alookup inst.ws k).isSome = true ↔ k ∈ inst.reqs) := by
  obtain ⟨header, arcsL, sv, rq, hold, psis, ein, eout, hh, ha, hs, hrq, hhold, hpsis,
    hein, heout, hasm⟩ := loadInstanceLines_ok h
  obtain ⟨hf, hex, hinst⟩ := assembleInstance_ok hasm
  subst hinst
  exact reqsLoop_keyset _ ⟨[], [], [], [], [], [], [], []⟩ rq hrq (by intro k; simp [alookup])

/-- C6 (counterexample to the claim as stated): two identical REQS rows
parse successfully; the id 1 is a key of `os` but occurs twice, not
exactly once, in the reqs list. -/
theorem C6_counterexample :
    pyParseReqs [reqRow, reqRow] = .ok rqDup ∧
    (alookup rqDup.os 1).isSome = true ∧
    rqDup.reqs.count 1 = 2 :=
  ⟨by decide, by decide, by decide⟩

theorem C6_req_key_sets_witness :
    loadInstanceLines 3 1 1 50 linesC1A = .ok instC1A ∧
    (((alookup instC1A.os 1).isSome = true ↔ (1 : ℤ) ∈ instC1A.reqs) ∧
     ((alookup instC1A.ds 1).isSome = true ↔ (1 : ℤ) ∈ instC1A.reqs) ∧
     ((alookup instC1A.alphas 1).isSome = true ↔ (1 : ℤ) ∈ instC1A.reqs) ∧
     ((alookup instC1A.betas 1).isSome = true ↔ (1 : ℤ) ∈ instC1A.reqs) ∧
     ((alookup instC1A.is_contract 1).isSome = true ↔ (1 : ℤ) ∈ instC1A.reqs) ∧
     ((alookup instC1A.rhos 1).isSome = true ↔ (1 : ℤ) ∈ instC1A.reqs) ∧
     ((alookup instC1A.ws 1).isSome = true ↔ (1 : ℤ) ∈ instC1A.reqs)) :=
  ⟨by decide, C6_req_key_sets 3 1 1 50 linesC1A instC1A (by decide) 1⟩

/-- C7: for every successfully parsed instance, `us[arc]` equals the
HEADER's ServiceCapacity (as a float) for every Arc in the services
list: the parsed header always stores ServiceCapacity as an int, the
assembler re-reads it with `float(...)` for every service arc, and no
row-local value enters the `us` dict. -/
theorem C7_uniform_capacity (N K F C : ℕ) (lines : List Str) (inst : SSNDInstance)
    (h : loadInstanceLines N K F C lines = .ok inst) :
    ∀ a, a ∈ inst.services → alookup inst.us a = some ((inst.ServiceCapacity : ℚ)) := by
  obtain ⟨header, arcsL, sv, rq, hold, psis, ein, eout, hh, ha, hs, hrq, hhold, hpsis,
    hein, heout, hasm⟩ := loadInstanceLines_ok h
  obtain ⟨hf, hex, hinst⟩ := assembleInstance_ok hasm
  subst hinst
  obtain ⟨v, hv, hti, htf⟩ := extractFields_scap hex
  obtain ⟨n, rfl⟩ :=
    headerLoop_scap _ [] header hh (by intro v hv0; simp [alookup] at hv0) v hv
  have h1 : n = hf.serviceCapacity := Except.ok.inj hti
  have h2 : ((n : ℚ)) = hf.scFloat := Except.ok.inj htf
  intro a ha2
  have hmem : a ∈ sv.services := ha2
  show alookup (usOf sv.services hf.scFloat) a = some ((hf.serviceCapacity : ℚ))
  rw [usOf_mem hmem, ← h2, ← h1]

theorem C7_uniform_capacity_witness :
    loadInstanceLines 3 1 1 50 linesC1A = .ok instC1A ∧
    arcA ∈ instC1A.services ∧
    alookup instC1A.us arcA = some ((instC1A.ServiceCapacity : ℚ)) :=
  ⟨by decide, by decide,
   C7_uniform_capacity 3 1 1 50 linesC1A instC1A (by decide) arcA (by decide)⟩

/-- C8: when the HOLDING, PSI, EIN and EOUT sections are absent from the
split file, a successfully parsed instance has empty `holding_arcs`,
`chs`, `alphaPsis`, `betaPsis`, `arcsEin` and `arcsEout` collections
(and, as the witness file shows, a file with only HEADER/ARCS/SERVICES/
REQS parses successfully). -/
theorem C8_optional_sections (N K F C : ℕ) (lines : List Str) (inst : SSNDInstance)
    (h1 : alookup (sectionBlocksLines lines) Sec.HOLDING = none)
    (h2 : alookup (sectionBlocksLines lines) Sec.PSI = none)
    (h3 : alookup (sectionBlocksLines lines) Sec.EIN = none)
    (h4 : alookup (sectionBlocksLines lines) Sec.EOUT = none)
    (h : loadInstanceLines N K F C lines = .ok inst) :
    inst.holding_arcs = [] ∧ inst.chs = [] ∧ inst.alphaPsis = [] ∧ inst.betaPsis = [] ∧
    inst.arcsEin = [] ∧ inst.arcsEout = [] := by
  obtain ⟨header, arcsL, sv, rq, hold, psis, ein, eout, hh, ha, hs, hrq, hhold, hpsis,
    hein, heout, hasm⟩ := loadInstanceLines_ok h
  have e1 : hold = ([], []) :=
    (Except.ok.inj ((holdStep_absent h1).symm.trans hhold)).symm
  have e2 : psis = ([], []) :=
    (Except.ok.inj ((psiStep_absent h2).symm.trans hpsis)).symm
  have e3 : ein = [] := (Except.ok.inj ((einStep_absent h3).symm.trans hein)).symm
  have e4 : eout = [] := (Except.ok.inj ((eoutStep_absent h4).symm.trans heout)).symm
  subst e1 e2 e3 e4
  obtain ⟨hf, hex, hinst⟩ := assembleInstance_ok hasm
  subst hinst
  exact ⟨rfl, rfl, rfl, rfl, rfl, rfl⟩

theorem C8_optional_sections_witness :
    loadInstanceLines 3 1 1 50 linesC1A = .ok instC1A ∧
    (instC1A.holding_arcs = [] ∧ instC1A.chs = [] ∧ instC1A.alphaPsis = [] ∧
     instC1A.betaPsis = [] ∧ instC1A.arcsEin = [] ∧ instC1A.arcsEout = []) :=
  ⟨by decide,
   C8_optional_sections 3 1 1 50 linesC1A instC1A (by decide) (by decide) (by decide)
     (by decide) (by decide)⟩

/-! ## C3: missing required HEADER keys -/

/-- The HEADER dict keys the assembler unconditionally reads, in its
evaluation order. -/
def requiredKeys : List Str :=
  [kNodeSize, kTimePeriods, kRequestSize, kServiceNoPerArc, kServiceCapacity, kFastFrac,
   kRevenueRange, kReqDemandRange, kServiceCost, kTransCost, kHoldingCost]

/-- Whether the conversion the assembler applies to the required key `k`
succeeds on the value `v`. -/
def requiredConv (k : Str) (v : HVal) : Bool :=
  if k = kTimePeriods ∨ k = kRevenueRange ∨ k = kReqDemandRange then exIsOk (toSeq v)
  else if k = kFastFrac then exIsOk (toFloat v)
  else exIsOk (toInt v)

/-- The first required key missing from the header dict (an arbitrary
value when none is missing). -/
def firstMissing (header : List (Str × HVal)) : Str :=
  (requiredKeys.find? (fun k => (alookup header k).isNone)).getD []

theorem exIsOk_true {x : Except ε α} (h : exIsOk x = true) : ∃ a, x = .ok a := by
  cases x with
  | ok a => exact ⟨a, rfl⟩
  | error e => exact absurd h (by simp [exIsOk])

theorem rc_nodeSize (v : HVal) : requiredConv kNodeSize v = exIsOk (toInt v) := by
  unfold requiredConv
  rw [if_neg (by decide), if_neg (by decide)]

theorem rc_timePeriods (v : HVal) : requiredConv kTimePeriods v = exIsOk (toSeq v) := by
  unfold requiredConv
  rw [if_pos (by decide)]

theorem rc_requestSize (v : HVal) : requiredConv kRequestSize v = exIsOk (toInt v) := by
  unfold requiredConv
  rw [if_neg (by decide), if_neg (by decide)]

theorem rc_servicePerArc (v : HVal) :
    requiredConv kServiceNoPerArc v = exIsOk (toInt v) := by
  unfold requiredConv
  rw [if_neg (by decide), if_neg (by decide)]

theorem rc_serviceCapacity (v : HVal) :
    requiredConv kServiceCapacity v = exIsOk (toInt v) := by
  unfold requiredConv
  rw [if_neg (by decide), if_neg (by decide)]

theorem rc_fastFrac (v : HVal) : requiredConv kFastFrac v = exIsOk (toFloat v) := by
  unfold requiredConv
  rw [if_neg (by decide), if_pos (by decide)]

theorem rc_revenueRange (v : HVal) : requiredConv kRevenueRange v = exIsOk (toSeq v) := by
  unfold requiredConv
  rw [if_pos (by decide)]

theorem rc_reqDemandRange (v : HVal) :
    requiredConv kReqDemandRange v = exIsOk (toSeq v) := by
  unfold requiredConv
  rw [if_pos (by decide)]

theorem rc_serviceCost (v : HVal) : requiredConv kServiceCost v = exIsOk (toInt v) := by
  unfold requiredConv
  rw [if_neg (by decide), if_neg (by decide)]

theorem rc_transCost (v : HVal) : requiredConv kTransCost v = exIsOk (toInt v) := by
  unfold requiredConv
  rw [if_neg (by decide), if_neg (by decide)]

theorem rc_holdingCost (v : HVal) : requiredConv kHoldingCost v = exIsOk (toInt v) := by
  unfold requiredConv
  rw [if_neg (by decide), if_neg (by decide)]

theorem extractFields_missing (N K F C : ℕ) (header : List (Str × HVal)) (arcsLit : Lit)
    (hconv : ∀ k v, k ∈ requiredKeys → alookup header k = some v → requiredConv k v = true)
    (hmiss : ∃ k, k ∈ requiredKeys ∧ alookup header k = none) :
    alookup header (firstMissing header) = none ∧
    firstMissing header ∈ requiredKeys ∧
    extractFields N K F C header arcsLit = .error (.keyError (firstMissing header)) := by
  cases h1 : alookup header kNodeSize with
  | none =>
    have hfm : firstMissing header = kNodeSize := by
      simp [firstMissing, requiredKeys, List.find?, h1]
    refine ⟨by rw [hfm]; exact h1, by rw [hfm]; decide, ?_⟩
    rw [hfm]
    simp [extractFields, hGet, exBind_ok, exBind_err, h1]
  | some v1 =>
    have hc1 := hconv kNodeSize v1 (by decide) h1
    rw [rc_nodeSize] at hc1
    obtain ⟨x1, hx1⟩ := exIsOk_true hc1
    cases h2 : alookup header kTimePeriods with
    | none =>
      have hfm : firstMissing header = kTimePeriods := by
        simp [firstMissing, requiredKeys, List.find?, h1, h2]
      refine ⟨by rw [hfm]; exact h2, by rw [hfm]; decide, ?_⟩
      rw [hfm]
      simp [extractFields, hGet, exBind_ok, exBind_err, h1, hx1, h2]
    | some v2 =>
      have hc2 := hconv kTimePeriods v2 (by decide) h2
      rw [rc_timePeriods] at hc2
      obtain ⟨x2, hx2⟩ := exIsOk_true hc2
      cases h3 : alookup header kRequestSize with
      | none =>
        have hfm : firstMissing header = kRequestSize := by
          simp [firstMissing, requiredKeys, List.find?, h1, h2, h3]
        refine ⟨by rw [hfm]; exact h3, by rw [hfm]; decide, ?_⟩
        rw [hfm]
        simp [extractFields, hGet, exBind_ok, exBind_err, h1, hx1, h2, hx2, h3]
      | some v3 =>
        have hc3 := hconv kRequestSize v3 (by decide) h3
        rw [rc_requestSize] at hc3
        obtain ⟨x3, hx3⟩ := exIsOk_true hc3
        cases h4 : alookup header kServiceNoPerArc with
        | none =>
          have hfm : firstMissing header = kServiceNoPerArc := by
            simp [firstMissing, requiredKeys, List.find?, h1, h2, h3, h4]
          refine ⟨by rw [hfm]; exact h4, by rw [hfm]; decide, ?_⟩
          rw [hfm]
          simp [extractFields, hGet, exBind_ok, exBind_err, h1, hx1, h2, hx2, h3, hx3, h4]
        | some v4 =>
          have hc4 := hconv kServiceNoPerArc v4 (by decide) h4
          rw [rc_servicePerArc] at hc4
          obtain ⟨x4, hx4⟩ := exIsOk_true hc4
          cases h5 : alookup header kServiceCapacity with
          | none =>
            have hfm : firstMissing header = kServiceCapacity := by
              simp [firstMissing, requiredKeys, List.find?, h1, h2, h3, h4, h5]
            refine ⟨by rw [hfm]; exact h5, by rw [hfm]; decide, ?_⟩
            rw [hfm]
            simp [extractFields, hGet, exBind_ok, exBind_err, h1, hx1, h2, hx2, h3, hx3, h4, hx4, h5]
          | some v5 =>
            have hc5 := hconv kServiceCapacity v5 (by decide) h5
            rw [rc_serviceCapacity] at hc5
            obtain ⟨x5, hx5⟩ := exIsOk_true hc5
            cases h6 : alookup header kFastFrac with
            | none =>
              have hfm : firstMissing header = kFastFrac := by
                simp [firstMissing, requiredKeys, List.find?, h1, h2, h3, h4, h5, h6]
              refine ⟨by rw [hfm]; exact h6, by rw [hfm]; decide, ?_⟩
              rw [hfm]
              simp [extractFields, hGet, exBind_ok, exBind_err, h1, hx1, h2, hx2, h3, hx3, h4, hx4, h5, hx5, h6]
            | some v6 =>
              have hc6 := hconv kFastFrac v6 (by decide) h6
              rw [rc_fastFrac] at hc6
              obtain ⟨x6, hx6⟩ := exIsOk_true hc6
              cases h7 : alookup header kRevenueRange with
              | none =>
                have hfm : firstMissing header = kRevenueRange := by
                  simp [firstMissing, requiredKeys, List.find?, h1, h2, h3, h4, h5, h6, h7]
                refine ⟨by rw [hfm]; exact h7, by rw [hfm]; decide, ?_⟩
                rw [hfm]
                simp [extractFields, hGet, exBind_ok, exBind_err, h1, hx1, h2, hx2, h3, hx3, h4, hx4, h5, hx5, h6, hx6, h7]
              | some v7 =>
                have hc7 := hconv kRevenueRange v7 (by decide) h7
                rw [rc_revenueRange] at hc7
                obtain ⟨x7, hx7⟩ := exIsOk_true hc7
                cases h8 : alookup header kReqDemandRange with
                | none =>
                  have hfm : firstMissing header = kReqDemandRange := by
                    simp [firstMissing, requiredKeys, List.find?, h1, h2, h3, h4, h5, h6, h7, h8]
                  refine ⟨by rw [hfm]; exact h8, by rw [hfm]; decide, ?_⟩
                  rw [hfm]
                  simp [extractFields, hGet, exBind_ok, exBind_err, h1, hx1, h2, hx2, h3, hx3, h4, hx4, h5, hx5, h6, hx6, h7, hx7, h8]
                | some v8 =>
                  have hc8 := hconv kReqDemandRange v8 (by decide) h8
                  rw [rc_reqDemandRange] at hc8
                  obtain ⟨x8, hx8⟩ := exIsOk_true hc8
                  cases h9 : alookup header kServiceCost with
                  | none =>
                    have hfm : firstMissing header = kServiceCost := by
                      simp [firstMissing, requiredKeys, List.find?, h1, h2, h3, h4, h5, h6, h7, h8, h9]
                    refine ⟨by rw [hfm]; exact h9, by rw [hfm]; decide, ?_⟩
                    rw [hfm]
                    simp [extractFields, hGet, exBind_ok, exBind_err, h1, hx1, h2, hx2, h3, hx3, h4, hx4, h5, hx5, h6, hx6, h7, hx7, h8, hx8, h9]
                  | some v9 =>
                    have hc9 := hconv kServiceCost v9 (by decide) h9
                    rw [rc_serviceCost] at hc9
                    obtain ⟨x9, hx9⟩ := exIsOk_true hc9
                    cases h10 : alookup header kTransCost with
                    | none =>
                      have hfm : firstMissing header = kTransCost := by
                        simp [firstMissing, requiredKeys, List.find?, h1, h2, h3, h4, h5, h6, h7, h8, h9, h10]
                      refine ⟨by rw [hfm]; exact h10, by rw [hfm]; decide, ?_⟩
                      rw [hfm]
                      simp [extractFields, hGet, exBind_ok, exBind_err, h1, hx1, h2, hx2, h3, hx3, h4, hx4, h5, hx5, h6, hx6, h7, hx7, h8, hx8, h9, hx9, h10]
                    | some v10 =>
                      have hc10 := hconv kTransCost v10 (by decide) h10
                      rw [rc_transCost] at hc10
                      obtain ⟨x10, hx10⟩ := exIsOk_true hc10
                      cases h11 : alookup header kHoldingCost with
                      | none =>
                        have hfm : firstMissing header = kHoldingCost := by
                          simp [firstMissing, requiredKeys, List.find?, h1, h2, h3, h4, h5, h6, h7, h8, h9, h10, h11]
                        refine ⟨by rw [hfm]; exact h11, by rw [hfm]; decide, ?_⟩
                        rw [hfm]
                        simp [extractFields, hGet, exBind_ok, exBind_err, h1, hx1, h2, hx2, h3, hx3, h4, hx4, h5, hx5, h6, hx6, h7, hx7, h8, hx8, h9, hx9, h10, hx10, h11]
                      | some v11 =>
                        have hc11 := hconv kHoldingCost v11 (by decide) h11
                        rw [rc_holdingCost] at hc11
                        obtain ⟨x11, hx11⟩ := exIsOk_true hc11
                        obtain ⟨k, hk, hknone⟩ := hmiss
                        simp [requiredKeys] at hk
                        rcases hk with rfl | rfl | rfl | rfl | rfl | rfl | rfl | rfl | rfl | rfl | rfl
                        · rw [h1] at hknone
                          exact Option.noConfusion hknone
                        · rw [h2] at hknone
                          exact Option.noConfusion hknone
                        · rw [h3] at hknone
                          exact Option.noConfusion hknone
                        · rw [h4] at hknone
                          exact Option.noConfusion hknone
                        · rw [h5] at hknone
                          exact Option.noConfusion hknone
                        · rw [h6] at hknone
                          exact Option.noConfusion hknone
                        · rw [h7] at hknone
                          exact Option.noConfusion hknone
                        · rw [h8] at hknone
                          exact Option.noConfusion hknone
                        · rw [h9] at hknone
                          exact Option.noConfusion hknone
                        · rw [h10] at hknone
                          exact Option.noConfusion hknone
                        · rw [h11] at hknone
                          exact Option.noConfusion hknone

/-- C3 (amended): when some required HEADER key is absent, the Instance
Assembler always fails; provided every required key that IS present has
a value its conversion accepts, the failure is the `KeyError` naming the
first absent required key (the code's realisation of the spec's
`MissingFieldError`).  Without that proviso the assembler can instead
fail with a Value/Type error raised at an earlier present key, as
`C3_counterexample` shows. -/
theorem C3_missing_header_key (N K F C : ℕ) (header : List (Str × HVal)) (arcsLit : Lit)
    (sv : ServData) (rq : ReqData) (aH : List Lit) (chs : List (Lit × ℚ))
    (aPsis bPsis : List ((ℤ × ℤ) × ℚ)) (ein eout : List (Lit × Lit))
    (hconv : ∀ k v, k ∈ requiredKeys → alookup header k = some v → requiredConv k v = true)
    (hmiss : ∃ k, k ∈ requiredKeys ∧ alookup header k = none) :
    alookup header (firstMissing header) = none ∧
    firstMissing header ∈ requiredKeys ∧
    assembleInstance N K F C header arcsLit sv rq aH chs aPsis bPsis ein eout =
      .error (.keyError (firstMissing header)) := by
  obtain ⟨hn, hm, he⟩ := extractFields_missing N K F C header arcsLit hconv hmiss
  refine ⟨hn, hm, ?_⟩
  unfold assembleInstance
  rw [he]
  rfl

theorem C3_missing_header_key_witness :
    alookup ([] : List (Str × HVal)) (firstMissing []) = none ∧
    firstMissing [] ∈ requiredKeys ∧
    assembleInstance 1 1 1 1 [] (.list []) ⟨[], [], []⟩
      ⟨[], [], [], [], [], [], [], []⟩ [] [] [] [] [] [] =
      .error (.keyError (firstMissing [])) :=
  C3_missing_header_key 1 1 1 1 [] (.list []) ⟨[], [], []⟩
    ⟨[], [], [], [], [], [], [], []⟩ [] [] [] [] [] []
    (fun k v _ hv => by simp [alookup] at hv)
    ⟨kNodeSize, by decide, rfl⟩

/-- Header lines for the C3 counterexample: every required key except
`HoldingCost` is present, but `TransCost` is given directly as the raw
(non-numeric) string `x` instead of through `Trans/HoldingCost`. -/
def hdrC3Lines : List Str :=
  ["NodeSize 3".toList, "TimePeriods [0,1]".toList, "RequestSize 1".toList,
   "ServiceNoPerArc 1".toList, "ServiceCapacity 50".toList, "FastServiceRatio 0.5".toList,
   "RevenueRange (1,2),(3,4)".toList, "ReqDemandRange (1,10)".toList,
   "ServiceCost 1".toList, "TransCost x".toList]

/-- The header dict `_parse_header` produces from `hdrC3Lines`. -/
def hdrC3 : List (Str × HVal) := (pyParseHeader hdrC3Lines).toOption.getD []

/-- C3 (counterexample to the claim as stated): `hdrC3` parses fine and
misses the required key `HoldingCost`, yet the assembler fails with a
`ValueError` (from `int("x")` at the earlier present key `TransCost`),
not with a missing-field `KeyError`. -/
theorem C3_counterexample :
    pyParseHeader hdrC3Lines = .ok hdrC3 ∧
    alookup hdrC3 kHoldingCost = none ∧
    kHoldingCost ∈ requiredKeys ∧
    exIsOk (assembleInstance 1 1 1 1 hdrC3 (.list []) ⟨[], [], []⟩
      ⟨[], [], [], [], [], [], [], []⟩ [] [] [] [] [] []) = false ∧
    exErrIsKeyErr (assembleInstance 1 1 1 1 hdrC3 (.list []) ⟨[], [], []⟩
      ⟨[], [], [], [], [], [], [], []⟩ [] [] [] [] [] []) = false :=
  ⟨by decide, by decide, by decide, by decide, by decide⟩

/-! ## C1 -/

/-- C1 (counterexample to the claim as stated): the spec's end-to-end
example file, whose HEADER has exactly the ten listed lines, does not
yield an Instance: the assembler reads `header["ServiceCost"]`, a key
the example never sets, and fails with `KeyError("ServiceCost")`. -/
theorem C1_counterexample :
    loadInstanceText 3 1 1 50 fileC1 = .error (.keyError kServiceCost) := by
  decide

/-- C1 (amended): with a `ServiceCost` line added to the HEADER (the
minimal repair the assembler forces), the example file parses to an
Instance with `services = [((1,0),(2,1))]`, `cs` of that arc `= 2.0`,
`fs` of that arc `= 5.0`, `us` of that arc `= 50.0`, `reqs = [1]` and
`is_contract[1] = True`. -/
theorem C1_end_to_end :
    loadInstanceText 3 1 1 50 fileC1A = .ok instC1A ∧
    instC1A.services = [arcA] ∧
    alookup instC1A.cs arcA = some (2 : ℚ) ∧
    alookup instC1A.fs arcA = some (5 : ℚ) ∧
    alookup instC1A.us arcA = some (50 : ℚ) ∧
    instC1A.reqs = [1] ∧
    alookup instC1A.is_contract 1 = some true :=
  ⟨by decide, by decide, by decide, by decide, by decide, by decide, by decide⟩
